import Mathlib

/-!
Shallow embedding of the controller layer of cosmic-tasks (src/src/app.rs)
and verification of its specification claims.

The reducer `App::update`, the navigation/selection logic, the dialog stack
and the key dispatch are translated from src/src/app.rs.  Collaborating
modules that are not part of the provided sources (content.rs, details.rs,
key_bind.rs, config.rs, the done_core models and the libcosmic
segmented_button widget model) are modelled from the specification; each
such definition carries a doc comment saying so.
-/

set_option maxHeartbeats 1000000
set_option synthInstance.maxHeartbeats 1000000

namespace CosmicTasks

/-- Owning backend service of a List (done_core `Service`); the application
only ever uses `Service::Computer`. -/
inductive Service where
  | Computer
deriving DecidableEq

/-- Backend List entity (done_core `models::list::List`): unique id, display
name, optional icon reference, owning service (spec section 3). -/
structure TodoList where
  id : String
  name : String
  icon : Option String
  service : Service
deriving DecidableEq

/-- Modelled from the spec: done_core `List::new(name, service)` is not in
src/; the backend assigns the id and icon defaulting, so here only the name
and service are determined and the optional icon starts absent. -/
def listNew (name : String) (service : Service) : TodoList :=
  { id := "", name := name, icon := none, service := service }

/-- Backend Task entity (done_core `models::task::Task`), reduced to the
fields the controller ever forwards (spec section 3). -/
structure TodoTask where
  id : String
  title : String
  priority : Nat
  completed : Bool
  favorite : Bool
deriving DecidableEq

/-- Context side panel selector (src/src/app.rs `ContextPage`). -/
inductive ContextPage where
  | About
  | TaskDetails
  | Settings
deriving DecidableEq

/-- Modal dialog page (src/src/app.rs `DialogPage`). -/
inductive DialogPage where
  | NewItem (name : String)
  | RenameItem (from' : String) (to' : String)
  | DeleteItem (name : String)
deriving DecidableEq

/-- Keyboard modifier state (iced `Modifiers`), reduced to the four flags. -/
structure Modifiers where
  ctrl : Bool
  alt : Bool
  shift : Bool
  logo : Bool
deriving DecidableEq

/-- Modelled from the spec: key_bind.rs is not in src/; a binding is a
(modifier-set, key) chord (spec section 2, component 1). -/
structure KeyBind where
  modifiers : Modifiers
  key : String
deriving DecidableEq

/-- Modelled from the spec: key_bind.rs is not in src/; an input matches a
binding exactly when its (modifiers, key) equals the binding chord
("scan the binding table for the first entry whose (modifiers, key)
matches", spec section 4.1). -/
def KeyBind.matchesInput (kb : KeyBind) (mods : Modifiers) (k : String) : Bool :=
  kb.modifiers == mods && kb.key == k

/-- Logical key-bound action (src/src/app.rs `Action`). -/
inductive Action where
  | About
  | ItemDown
  | ItemUp
  | Settings
  | WindowClose
  | WindowNew
  | NewList
  | DeleteList
  | RenameList
deriving DecidableEq

/-- Theme preference (crate::config `AppTheme`; config.rs is not in src/,
variants taken from the match in `App::settings`). -/
inductive AppTheme where
  | Dark
  | Light
  | System
deriving DecidableEq

/-- Modelled from the spec: config.rs is not in src/; the persisted
configuration holds the theme preference (spec section 3, AppConfig). -/
structure AppConfig where
  app_theme : AppTheme
deriving DecidableEq

/-- System theme mode notification payload (cosmic_theme `ThemeMode`),
reduced to the dark flag; the reducer never inspects it. -/
structure ThemeMode where
  is_dark : Bool
deriving DecidableEq

/-- Modelled from the spec: the libcosmic segmented_button single-select
model is external.  It is an ordered collection of entries, each a
(entity key, attached List) pair, with at most one active entity
(spec section 3, Navigation Model).  Fresh keys come from a counter. -/
structure NavModel where
  entries : List (Nat × TodoList)
  nextId : Nat
  active : Option Nat
deriving DecidableEq

/-- Modelled from the spec: `model.insert() ... .data(list)` appends one
entry at the end of the order with a fresh entity key. -/
def navInsert (n : NavModel) (l : TodoList) : NavModel :=
  { entries := n.entries ++ [(n.nextId, l)], nextId := n.nextId + 1, active := n.active }

/-- Modelled from the spec: `model.activate(entity)` makes the given entity
the single active one. -/
def navActivate (n : NavModel) (e : Nat) : NavModel :=
  { n with active := some e }

/-- Modelled from the spec: `model.data::<List>(entity)` returns the List
attached to the entity, if the entity is present. -/
def navData (n : NavModel) (e : Nat) : Option TodoList :=
  (n.entries.find? (fun p => p.1 == e)).map (fun p => p.2)

/-- Modelled from the spec: `model.data_set(entity, list)` replaces the data
attached to an existing entity. -/
def navDataSet (n : NavModel) (e : Nat) (l : TodoList) : NavModel :=
  { n with entries := n.entries.map (fun p => if p.1 == e then (p.1, l) else p) }

/-- Modelled from the spec: `model.remove(entity)` removes the entity from
the order and deactivates it if it was active. -/
def navRemove (n : NavModel) (e : Nat) : NavModel :=
  { entries := n.entries.filter (fun p => p.1 != e),
    nextId := n.nextId,
    active := if n.active = some e then none else n.active }

/-- List attached to the currently active navigation entry, if any. -/
def navActiveData (n : NavModel) : Option TodoList :=
  n.active.bind (fun e => navData n e)

/-- Modelled from the spec: content.rs is not in src/; the Content
sub-controller owns the list-of-tasks view state for the currently selected
list (spec section 2, component 3). -/
structure ContentState where
  list : Option TodoList
  tasks : List TodoTask
deriving DecidableEq

/-- Messages delegated to the Content sub-controller; only the constructors
the app reducer sends appear (src/src/app.rs call sites and spec
section 4.2). -/
inductive ContentMsg where
  | list (l : Option TodoList)
  | setItems (ts : List TodoTask)
  | itemDown
  | itemUp
  | rename (id : String) (title : String)
  | setPriority (id : String) (priority : Nat)
deriving DecidableEq

/-- Intents emitted by the Content sub-controller (src/src/app.rs
`content::Command`, as consumed in `App::update`). -/
inductive ContentCmd where
  | getTasks (listId : String)
  | displayTask (t : TodoTask)
  | updateTask (t : TodoTask)
  | delete (id : String)
  | createTask (t : TodoTask)
deriving DecidableEq

/-- Modelled from the spec: content.rs is not in src/.  On a list change the
Content sub-controller records the list and requests a task fetch for it
("forward a list-changed intent to the Content sub-controller, scheduling
any command it requests (task fetch)", spec section 4.1); the empty-list
message requests nothing; the remaining messages are internal view-state
updates that emit no backend intent here. -/
def contentUpdate (c : ContentState) : ContentMsg → ContentState × List ContentCmd
  | .list l =>
      ({ c with list := l },
        match l with
        | some l' => [.getTasks l'.id]
        | none => [])
  | .setItems ts => ({ c with tasks := ts }, [])
  | .itemDown => (c, [])
  | .itemUp => (c, [])
  | .rename _ _ => (c, [])
  | .setPriority _ _ => (c, [])

/-- Details sub-controller state (details.rs is not in src/): the single
task edit buffer and the priority selector (spec section 2, component 4). -/
structure DetailsState where
  task : Option TodoTask
  priority_active : Option Nat
deriving DecidableEq

/-- Modelled from the spec: the Details priority selector holds an entity
per priority level, so `priority_model.entity_at` finds one. -/
def priorityEntityAt (p : Nat) : Option Nat :=
  some p

/-- Messages delegated to the Details sub-controller; details.rs is not in
src/, so the message set mirrors the intent vocabulary of spec
section 4.2. -/
inductive DetailsMsg where
  | update (t : TodoTask)
  | rename (id : String) (title : String)
  | delete (id : String)
  | complete (id : String) (b : Bool)
  | favorite (id : String) (b : Bool)
  | priorityActivate (id : String) (priority : Nat)
deriving DecidableEq

/-- Intents emitted by the Details sub-controller (src/src/app.rs
`details::Command`, as consumed in `App::update`). -/
inductive DetailsCmd where
  | update (t : TodoTask)
  | rename (id : String) (title : String)
  | delete (id : String)
  | complete (id : String) (b : Bool)
  | favorite (id : String) (b : Bool)
  | priorityActivate (id : String) (priority : Nat)
deriving DecidableEq

/-- Modelled from the spec: details.rs is not in src/; each Details message
surfaces as the corresponding Intent for the controller to translate (spec
section 4.2). -/
def detailsUpdate (d : DetailsState) : DetailsMsg → DetailsState × List DetailsCmd
  | .update t => (d, [.update t])
  | .rename id title => (d, [.rename id title])
  | .delete id => (d, [.delete id])
  | .complete id b => (d, [.complete id b])
  | .favorite id b => (d, [.favorite id b])
  | .priorityActivate id p => (d, [.priorityActivate id p])

/-- Window-core state the reducer touches: the context drawer visibility
flag (`core.window.show_context`). -/
structure CoreState where
  show_context : Bool
deriving DecidableEq

/-- Controller messages (src/src/app.rs `Message`). -/
inductive Message where
  | ContentMessage (m : ContentMsg)
  | DetailsMessage (m : DetailsMsg)
  | ToggleContextPage (p : ContextPage)
  | LaunchUrl (url : String)
  | PopulateLists (ls : List TodoList)
  | WindowClose
  | WindowNew
  | DialogCancel
  | DialogComplete
  | DialogUpdate (p : DialogPage)
  | Key (mods : CosmicTasks.Modifiers) (k : String)
  | Modifiers (mods : CosmicTasks.Modifiers)
  | AppTheme (t : CosmicTasks.AppTheme)
  | SystemThemeModeChange (t : ThemeMode)
  | OpenNewListDialog
  | OpenRenameListDialog
  | OpenDeleteListDialog
  | AddList (l : TodoList)
  | DeleteList
  | UpdateList (l : TodoList)
deriving DecidableEq

/-- Scheduled asynchronous commands produced by one reducer step; each
constructor names the backend call or UI command the Rust code builds at the
corresponding site of src/src/app.rs. -/
inductive Cmd where
  | fetchLists
  | fetchTasks (listId : String)
  | createList (l : TodoList)
  | updateList (l : TodoList)
  | deleteList (id : String)
  | createTask (t : TodoTask)
  | updateTask (t : TodoTask)
  | deleteTask (listId : String) (taskId : String)
  | focusTextInput
  | closeWindow
  | setTheme
deriving DecidableEq

/-- Translation of `Action::message` (src/src/app.rs lines 110-124). -/
def Action.message : Action → Message
  | .About => .ToggleContextPage .About
  | .ItemDown => .ContentMessage .itemDown
  | .ItemUp => .ContentMessage .itemUp
  | .Settings => .ToggleContextPage .Settings
  | .WindowClose => .WindowClose
  | .WindowNew => .WindowNew
  | .NewList => .OpenNewListDialog
  | .RenameList => .OpenRenameListDialog
  | .DeleteList => .OpenDeleteListDialog

/-- Controller state (src/src/app.rs `App`); `key_binds` is the HashMap
binding table, modelled as an association list whose iteration order is
abstracted (order independence is proved for tables with distinct chords,
matching the HashMap key uniqueness). -/
structure App where
  core : CoreState
  nav_model : NavModel
  content : ContentState
  details : DetailsState
  config_handler : Bool
  config : AppConfig
  context_page : ContextPage
  key_binds : List (KeyBind × Action)
  selected_list : Option TodoList
  modifiers : Modifiers
  dialog_pages : List DialogPage
deriving DecidableEq

/-- Translation of `App::create_nav_item` (src/src/app.rs lines 188-198): inserts a
navigation entry for the list; the icon is taken with `unwrap`, so an absent
icon is a panic, modelled as `none`. -/
def createNavItem (a : App) (l : TodoList) : Option App :=
  match l.icon with
  | none => none
  | some _ => some { a with nav_model := navInsert a.nav_model l }

/-- The `Message::ToggleContextPage` state change (src/src/app.rs lines
550-558): toggling the visible page flips the visibility flag, selecting a
different page shows it. -/
def toggleContextPage (a : App) (p : ContextPage) : App :=
  if a.context_page = p then
    { a with core := { a.core with show_context := !a.core.show_context } }
  else
    { a with context_page := p, core := { a.core with show_context := true } }

/-- Folding one Content intent into the batch (src/src/app.rs lines
466-518): GetTasks schedules a fetch, DisplayTask syncs the Details panel
and opens the TaskDetails context page, UpdateTask/CreateTask schedule
writes, Delete schedules a task delete for the selected list. -/
def applyContentCmd (acc : App × List Cmd) (cc : ContentCmd) : App × List Cmd :=
  let a := acc.1
  let cmds := acc.2
  match cc with
  | .getTasks listId => (a, cmds ++ [.fetchTasks listId])
  | .displayTask t =>
      let d := a.details
      let d :=
        { d with
          priority_active :=
            match priorityEntityAt t.priority with
            | some e => some e
            | none => d.priority_active }
      let d := { d with task := some t }
      let a := { a with details := d }
      let a := toggleContextPage a .TaskDetails
      (a, cmds)
  | .updateTask t =>
      let a := { a with details := { a.details with task := some t } }
      (a, cmds ++ [.updateTask t])
  | .delete id =>
      match a.selected_list with
      | some list => (a, cmds ++ [.deleteTask list.id id])
      | none => (a, cmds)
  | .createTask t => (a, cmds ++ [.createTask t])

/-- The `Message::ContentMessage` branch (src/src/app.rs lines 463-520):
delegate to the Content sub-controller and translate every intent. -/
def handleContent (a : App) (m : ContentMsg) : App × List Cmd :=
  let r := contentUpdate a.content m
  r.2.foldl applyContentCmd ({ a with content := r.1 }, [])

/-- Folding one Details intent into the batch (src/src/app.rs lines
524-547): Update schedules a write, Rename and PriorityActivate re-dispatch
into Content, Delete/Complete/Favorite are accepted no-ops. -/
def applyDetailsCmd (acc : App × List Cmd) (dc : DetailsCmd) : App × List Cmd :=
  let a := acc.1
  let cmds := acc.2
  match dc with
  | .update t => (a, cmds ++ [.updateTask t])
  | .rename id title =>
      let r := handleContent a (.rename id title)
      (r.1, cmds ++ r.2)
  | .delete _ => (a, cmds)
  | .complete _ _ => (a, cmds)
  | .favorite _ _ => (a, cmds)
  | .priorityActivate id p =>
      let r := handleContent a (.setPriority id p)
      (r.1, cmds ++ r.2)

/-- The `Message::DetailsMessage` branch (src/src/app.rs lines 521-549). -/
def handleDetails (a : App) (m : DetailsMsg) : App × List Cmd :=
  let r := detailsUpdate a.details m
  r.2.foldl applyDetailsCmd ({ a with details := r.1 }, [])

/-- Translation of `App::on_nav_select` (src/src/app.rs lines 283-294): activate the
entity, mirror its List into `selected_list` and forward the list change to
Content. -/
def onNavSelect (a : App) (e : Nat) : App × List Cmd :=
  let nav := navActivate a.nav_model e
  let a := { a with nav_model := nav }
  match navData nav e with
  | some l =>
      let a := { a with selected_list := some l }
      handleContent a (.list (some l))
  | none => (a, [])

/-- The `Message::DeleteList` branch (src/src/app.rs lines 638-664): look
the entry up by the selected List id, remove it when found, forward the
empty-list message to Content, schedule the backend delete and clear the
selection; without a selection the message does nothing. -/
def handleDeleteList (a : App) : App × List Cmd :=
  match a.selected_list with
  | some list =>
      let ent := a.nav_model.entries.find? (fun p => p.2.id == list.id)
      let a :=
        match ent with
        | some p => { a with nav_model := navRemove a.nav_model p.1 }
        | none => a
      let r := handleContent a (.list none)
      ({ r.1 with selected_list := none }, r.2 ++ [.deleteList list.id])
  | none => (a, [])

/-- The insertion loop of `Message::PopulateLists` (src/src/app.rs lines
587-589) with panic propagation from `create_nav_item`. -/
def insertLists (a : App) : List TodoList → Option App
  | [] => some a
  | l :: rest =>
      match createNavItem a l with
      | some a' => insertLists a' rest
      | none => none

/-- The `Message::PopulateLists` branch (src/src/app.rs lines 586-596):
insert one entry per List in order, then activate the first entry of the
model (if any) and run the selection path. -/
def handlePopulate (a : App) (ls : List TodoList) : Option (App × List Cmd) :=
  match insertLists a ls with
  | none => none
  | some a =>
      match a.nav_model.entries.head? with
      | none => some (a, [])
      | some p =>
          let a := { a with nav_model := navActivate a.nav_model p.1 }
          some (onNavSelect a p.1)

/-- The `Message::AddList` branch (src/src/app.rs lines 629-637): record the
selection, insert the entry and select the last entity of the model. -/
def handleAddList (a : App) (l : TodoList) : Option (App × List Cmd) :=
  let a := { a with selected_list := some l }
  match createNavItem a l with
  | none => none
  | some a =>
      match a.nav_model.entries.getLast? with
      | none => some (a, [])
      | some p => some (onNavSelect a p.1)

/-- The `Message::OpenNewListDialog` branch (src/src/app.rs lines 607-612):
push a blank NewItem page and focus the text input. -/
def openNewListDialogStep (a : App) : App × List Cmd :=
  ({ a with dialog_pages := a.dialog_pages ++ [.NewItem ""] }, [.focusTextInput])

/-- The `Message::OpenRenameListDialog` branch (src/src/app.rs lines
613-621): prefill from the selected list; without a selection the push is
skipped. -/
def openRenameListDialogStep (a : App) : App × List Cmd :=
  match a.selected_list with
  | some list =>
      ({ a with dialog_pages := a.dialog_pages ++ [.RenameItem list.name list.name] },
        [.focusTextInput])
  | none => (a, [])

/-- The `Message::OpenDeleteListDialog` branch (src/src/app.rs lines
622-628). -/
def openDeleteListDialogStep (a : App) : App × List Cmd :=
  match a.selected_list with
  | some list =>
      ({ a with dialog_pages := a.dialog_pages ++ [.DeleteItem list.name] }, [])
  | none => (a, [])

/-- The `Message::DialogComplete` branch (src/src/app.rs lines 672-712):
pop the front page and, by variant, schedule the create, the rename of the
selected list, or delegate to the DeleteList path. -/
def handleDialogComplete (a : App) : App × List Cmd :=
  match a.dialog_pages with
  | [] => (a, [])
  | page :: rest =>
      let a := { a with dialog_pages := rest }
      match page with
      | .NewItem name => (a, [.createList (listNew name .Computer)])
      | .RenameItem _ name =>
          match a.selected_list with
          | some list => (a, [.updateList { list with name := name }])
          | none => (a, [])
      | .DeleteItem _ =>
          match a.selected_list with
          | some _ => handleDeleteList a
          | none => (a, [])

/-- Scan of the key-binding table (src/src/app.rs lines 598-602): first
entry whose chord matches the input wins. -/
def findAction (binds : List (KeyBind × Action)) (mods : Modifiers) (k : String) :
    Option Action :=
  (binds.find? (fun p => p.1.matchesInput mods k)).map (fun p => p.2)

/-- Dispatch of a matched action's message, one synchronous re-dispatch deep
(`self.update(action.message(None))`, src/src/app.rs line 600); proved equal
to `update` of `Action.message` below. -/
def updateAction (a : App) : Action → Option (App × List Cmd)
  | .About => some (toggleContextPage a .About, [])
  | .ItemDown => some (handleContent a .itemDown)
  | .ItemUp => some (handleContent a .itemUp)
  | .Settings => some (toggleContextPage a .Settings, [])
  | .WindowClose => some (a, [.closeWindow])
  | .WindowNew => some (a, [])
  | .NewList => some (openNewListDialogStep a)
  | .RenameList => some (openRenameListDialogStep a)
  | .DeleteList => some (openDeleteListDialogStep a)

/-- Translation of `App::update` (src/src/app.rs lines 432-724).  A reducer step returns
the successor state and the ordered batch of scheduled commands; `none`
means the step panics (the `unwrap` in `create_nav_item` or indexing an
empty dialog stack in `DialogUpdate`).  Synchronous re-dispatches are the
calls to the named branch functions. -/
def update (a : App) : Message → Option (App × List Cmd)
  | .ContentMessage m => some (handleContent a m)
  | .DetailsMessage m => some (handleDetails a m)
  | .ToggleContextPage p => some (toggleContextPage a p, [])
  | .WindowClose => some (a, [.closeWindow])
  | .WindowNew => some (a, [])
  | .LaunchUrl _ => some (a, [])
  | .AppTheme t => some ({ a with config := { a.config with app_theme := t } }, [.setTheme])
  | .SystemThemeModeChange _ => some (a, [.setTheme])
  | .PopulateLists ls => handlePopulate a ls
  | .Key mods k =>
      match findAction a.key_binds mods k with
      | some act => updateAction a act
      | none => some (a, [])
  | .Modifiers mods => some ({ a with modifiers := mods }, [])
  | .OpenNewListDialog => some (openNewListDialogStep a)
  | .OpenRenameListDialog => some (openRenameListDialogStep a)
  | .OpenDeleteListDialog => some (openDeleteListDialogStep a)
  | .AddList l => handleAddList a l
  | .DeleteList => some (handleDeleteList a)
  | .UpdateList l =>
      some ({ a with
              nav_model :=
                match a.nav_model.active with
                | some e => navDataSet a.nav_model e l
                | none => a.nav_model }, [])
  | .DialogCancel => some ({ a with dialog_pages := a.dialog_pages.tail }, [])
  | .DialogComplete => some (handleDialogComplete a)
  | .DialogUpdate p =>
      match a.dialog_pages with
      | [] => none
      | _ :: rest => some ({ a with dialog_pages := p :: rest }, [])

/-- Result routing of the `create_list` command (src/src/app.rs lines
677-683): a successful create re-enters as `AddList`, a failure is
swallowed. -/
def createListResultMessage : Option TodoList → Option Message
  | some l => some (.AddList l)
  | none => none

/-- Result routing of the `update_list` command (src/src/app.rs lines
693-701): success re-enters as `UpdateList` of the renamed list, failure is
swallowed. -/
def updateListResultMessage (l : TodoList) (ok : Bool) : Option Message :=
  if ok then some (.UpdateList l) else none

/-- Result routing of the `delete_list` command (src/src/app.rs lines
651-655): both outcomes are swallowed. -/
def deleteListResultMessage (_ : Bool) : Option Message :=
  none

/-- Result routing of the `fetch_lists` startup command (src/src/app.rs
lines 235-238). -/
def fetchListsResultMessage : Option (List TodoList) → Option Message
  | some data => some (.PopulateLists data)
  | none => none

/-- Result routing of the `fetch_tasks` command (src/src/app.rs lines
468-475). -/
def fetchTasksResultMessage : Option (List TodoTask) → Option Message
  | some data => some (.ContentMessage (.setItems data))
  | none => none

/-- Translation of the `App::init` state (src/src/app.rs lines 215-241); the binding table and
configuration arrive through flags, the rest starts empty with the Settings
context page. -/
def initApp (binds : List (KeyBind × Action)) (cfg : AppConfig)
    (config_handler : Bool) : App :=
  { core := { show_context := false },
    nav_model := { entries := [], nextId := 0, active := none },
    content := { list := none, tasks := [] },
    details := { task := none, priority_active := none },
    config_handler := config_handler,
    config := cfg,
    context_page := .Settings,
    key_binds := binds,
    selected_list := none,
    modifiers := { ctrl := false, alt := false, shift := false, logo := false },
    dialog_pages := [] }

/-- Commands scheduled by `App::init` (src/src/app.rs lines 235-240). -/
def initCommands : List Cmd :=
  [.fetchLists]

/-- Sequential application of messages through the reducer; a panic anywhere
aborts the run. -/
def applySeq (a : App) : List Message → Option App
  | [] => some a
  | m :: rest =>
      match update a m with
      | some r => applySeq r.1 rest
      | none => none

/-- Messages covered by the navigation invariant claim. -/
def isNavMessage : Message → Bool
  | .AddList _ => true
  | .DeleteList => true
  | .PopulateLists _ => true
  | _ => false

/-- Every List payload carried by the AddList/PopulateLists messages of a
sequence, in order. -/
def payloadLists : List Message → List TodoList
  | [] => []
  | .AddList l :: rest => l :: payloadLists rest
  | .PopulateLists ls :: rest => ls ++ payloadLists rest
  | _ :: rest => payloadLists rest

/-- Well-formedness of the navigation model keys: every entity key is below
the fresh counter and keys are pairwise distinct. -/
def NavKeysOk (n : NavModel) : Prop :=
  (∀ p ∈ n.entries, p.1 < n.nextId) ∧ (n.entries.map (fun p => p.1)).Nodup

/-- Ids of the Lists attached to the navigation entries, in order. -/
def entryIds (n : NavModel) : List String :=
  n.entries.map (fun p => p.2.id)

/-- Concrete List used by witnesses. -/
def exL1 : TodoList :=
  { id := "l1", name := "Groceries", icon := some "list-symbolic", service := .Computer }

/-- Second concrete List with a distinct id. -/
def exL2 : TodoList :=
  { id := "l2", name := "Work", icon := some "list-symbolic", service := .Computer }

/-- Concrete List sharing the id of `exDupB` but with a different name. -/
def exDupA : TodoList :=
  { id := "x", name := "A", icon := some "list-symbolic", service := .Computer }

/-- Concrete List sharing the id of `exDupA` but with a different name. -/
def exDupB : TodoList :=
  { id := "x", name := "B", icon := some "list-symbolic", service := .Computer }

/-- Concrete List without an icon. -/
def exNoIcon : TodoList :=
  { id := "n", name := "NoIcon", icon := none, service := .Computer }

/-- Concrete configuration. -/
def exCfg : AppConfig :=
  { app_theme := .System }

/-- Freshly initialised controller with an empty binding table. -/
def exInit : App :=
  initApp [] exCfg false

/-- Concrete key chord. -/
def exChord : KeyBind :=
  { modifiers := { ctrl := true, alt := false, shift := false, logo := false },
    key := "comma" }

/-- Controller whose binding table maps `exChord` to the Settings action. -/
def exKeyApp : App :=
  initApp [(exChord, .Settings)] exCfg false

/-- Message sequence of the C1 counterexample: two AddList messages whose
Lists share one id, then DeleteList. -/
def exC1Msgs : List Message :=
  [.AddList exDupA, .AddList exDupB, .DeleteList]

/-- Message sequence of the C1 witness. -/
def exC1WMsgs : List Message :=
  [.PopulateLists [exL1, exL2], .AddList { exL1 with id := "l3" }, .DeleteList]

/-- Final state of the C1 witness run, obtained by evaluation. -/
def exC1WFinal : App :=
  (applySeq exInit exC1WMsgs).getD exInit

/-- Controller with one selected list attached to one navigation entry. -/
def exDelApp : App :=
  { exInit with
    nav_model := { entries := [(0, exL1)], nextId := 1, active := some 0 },
    selected_list := some exL1 }

/-- Controller with one open NewItem dialog. -/
def exNewDialogApp : App :=
  { exInit with dialog_pages := [.NewItem "Groceries"] }

/-- Controller with one open RenameItem dialog but no selected list. -/
def exRenameNoSelApp : App :=
  { exInit with dialog_pages := [.RenameItem "a" "b"] }

/-- Controller showing the About context page. -/
def exAboutShownApp : App :=
  { exInit with context_page := .About, core := { show_context := true } }

theorem toggleContextPage_dialogs (a : App) (p : ContextPage) :
    (toggleContextPage a p).dialog_pages = a.dialog_pages := by
  unfold toggleContextPage
  split <;> rfl

theorem applyContentCmd_dialogs (acc : App × List Cmd) (cc : ContentCmd) :
    (applyContentCmd acc cc).1.dialog_pages = acc.1.dialog_pages := by
  cases cc <;> simp only [applyContentCmd, toggleContextPage_dialogs]
  split <;> rfl

theorem foldl_applyContentCmd_dialogs (ccs : List ContentCmd) (acc : App × List Cmd) :
    (ccs.foldl applyContentCmd acc).1.dialog_pages = acc.1.dialog_pages := by
  induction ccs generalizing acc with
  | nil => rfl
  | cons c cs ih => rw [List.foldl_cons, ih, applyContentCmd_dialogs]

theorem handleContent_dialogs (a : App) (m : ContentMsg) :
    (handleContent a m).1.dialog_pages = a.dialog_pages := by
  unfold handleContent
  rw [foldl_applyContentCmd_dialogs]

theorem applyDetailsCmd_dialogs (acc : App × List Cmd) (dc : DetailsCmd) :
    (applyDetailsCmd acc dc).1.dialog_pages = acc.1.dialog_pages := by
  cases dc <;> simp only [applyDetailsCmd, handleContent_dialogs]

theorem foldl_applyDetailsCmd_dialogs (dcs : List DetailsCmd) (acc : App × List Cmd) :
    (dcs.foldl applyDetailsCmd acc).1.dialog_pages = acc.1.dialog_pages := by
  induction dcs generalizing acc with
  | nil => rfl
  | cons c cs ih => rw [List.foldl_cons, ih, applyDetailsCmd_dialogs]

theorem handleDetails_dialogs (a : App) (m : DetailsMsg) :
    (handleDetails a m).1.dialog_pages = a.dialog_pages := by
  unfold handleDetails
  rw [foldl_applyDetailsCmd_dialogs]

theorem onNavSelect_dialogs (a : App) (e : Nat) :
    (onNavSelect a e).1.dialog_pages = a.dialog_pages := by
  unfold onNavSelect
  dsimp only
  split
  · rw [handleContent_dialogs]
  · rfl

theorem handleDeleteList_dialogs (a : App) :
    (handleDeleteList a).1.dialog_pages = a.dialog_pages := by
  unfold handleDeleteList
  split
  · simp only [handleContent_dialogs]
    split <;> rfl
  · rfl

theorem createNavItem_dialogs (a : App) (l : TodoList) (a' : App)
    (h : createNavItem a l = some a') : a'.dialog_pages = a.dialog_pages := by
  unfold createNavItem at h
  split at h
  · cases h
  · cases h
    rfl

theorem insertLists_dialogs : ∀ (ls : List TodoList) (a a' : App),
    insertLists a ls = some a' → a'.dialog_pages = a.dialog_pages := by
  intro ls
  induction ls with
  | nil => intro a a' h; cases h; rfl
  | cons l rest ih =>
      intro a a' h
      unfold insertLists at h
      split at h
      · next a₁ h₁ => rw [ih a₁ a' h, createNavItem_dialogs a l a₁ h₁]
      · cases h

theorem handlePopulate_dialogs (a : App) (ls : List TodoList) (r : App × List Cmd)
    (h : handlePopulate a ls = some r) : r.1.dialog_pages = a.dialog_pages := by
  unfold handlePopulate at h
  split at h
  · cases h
  · next a₁ h₁ =>
      split at h
      · cases h; exact insertLists_dialogs ls a a₁ h₁
      · cases h
        rw [onNavSelect_dialogs]
        exact insertLists_dialogs ls a a₁ h₁

theorem handleAddList_dialogs (a : App) (l : TodoList) (r : App × List Cmd)
    (h : handleAddList a l = some r) : r.1.dialog_pages = a.dialog_pages := by
  unfold handleAddList at h
  dsimp only at h
  split at h
  · cases h
  · next a₁ h₁ =>
      have hd : a₁.dialog_pages = a.dialog_pages :=
        createNavItem_dialogs { a with selected_list := some l } l a₁ h₁
      split at h
      · cases h; exact hd
      · cases h
        rw [onNavSelect_dialogs]
        exact hd

theorem handleDialogComplete_dialogs (a : App) :
    (handleDialogComplete a).1.dialog_pages = a.dialog_pages.tail := by
  unfold handleDialogComplete
  split
  · next heq => rw [heq]; rfl
  · next page rest heq =>
      rw [heq]
      cases page with
      | NewItem name => rfl
      | RenameItem f t => dsimp only; split <;> rfl
      | DeleteItem n =>
          dsimp only
          split
          · rw [handleDeleteList_dialogs]; rfl
          · rfl

theorem update_dialogs_shape (a : App) (m : Message) (r : App × List Cmd)
    (h : update a m = some r) :
    r.1.dialog_pages = a.dialog_pages ∨
    (∃ pg, r.1.dialog_pages = a.dialog_pages ++ [pg]) ∨
    r.1.dialog_pages.length = a.dialog_pages.length ∨
    r.1.dialog_pages = a.dialog_pages.tail := by
  cases m with
  | ContentMessage m =>
      simp only [update, Option.some.injEq] at h
      left; rw [← h]; exact handleContent_dialogs a m
  | DetailsMessage m =>
      simp only [update, Option.some.injEq] at h
      left; rw [← h]; exact handleDetails_dialogs a m
  | ToggleContextPage p =>
      simp only [update, Option.some.injEq] at h
      left; rw [← h]; exact toggleContextPage_dialogs a p
  | LaunchUrl url =>
      simp only [update, Option.some.injEq] at h
      left; rw [← h]
  | PopulateLists ls =>
      left; exact handlePopulate_dialogs a ls r h
  | WindowClose =>
      simp only [update, Option.some.injEq] at h
      left; rw [← h]
  | WindowNew =>
      simp only [update, Option.some.injEq] at h
      left; rw [← h]
  | DialogCancel =>
      simp only [update, Option.some.injEq] at h
      right; right; right; rw [← h]
  | DialogComplete =>
      simp only [update, Option.some.injEq] at h
      right; right; right; rw [← h]; exact handleDialogComplete_dialogs a
  | DialogUpdate p =>
      cases hd : a.dialog_pages with
      | nil =>
          simp only [update, hd] at h
          cases h
      | cons q rest =>
          simp only [update, hd, Option.some.injEq] at h
          right; right; left
          rw [← h]
          simp
  | Key mods k =>
      simp only [update] at h
      split at h
      · next act _ =>
          cases act with
          | About =>
              simp only [updateAction, Option.some.injEq] at h
              left; rw [← h]; exact toggleContextPage_dialogs a .About
          | ItemDown =>
              simp only [updateAction, Option.some.injEq] at h
              left; rw [← h]; exact handleContent_dialogs a .itemDown
          | ItemUp =>
              simp only [updateAction, Option.some.injEq] at h
              left; rw [← h]; exact handleContent_dialogs a .itemUp
          | Settings =>
              simp only [updateAction, Option.some.injEq] at h
              left; rw [← h]; exact toggleContextPage_dialogs a .Settings
          | WindowClose =>
              simp only [updateAction, Option.some.injEq] at h
              left; rw [← h]
          | WindowNew =>
              simp only [updateAction, Option.some.injEq] at h
              left; rw [← h]
          | NewList =>
              simp only [updateAction, Option.some.injEq] at h
              right; left
              exact ⟨.NewItem "", by rw [← h]; rfl⟩
          | RenameList =>
              simp only [updateAction, Option.some.injEq] at h
              unfold openRenameListDialogStep at h
              split at h
              · next l _ => right; left; exact ⟨.RenameItem l.name l.name, by rw [← h]⟩
              · left; rw [← h]
          | DeleteList =>
              simp only [updateAction, Option.some.injEq] at h
              unfold openDeleteListDialogStep at h
              split at h
              · next l _ => right; left; exact ⟨.DeleteItem l.name, by rw [← h]⟩
              · left; rw [← h]
      · simp only [Option.some.injEq] at h
        left; rw [← h]
  | Modifiers mods =>
      simp only [update, Option.some.injEq] at h
      left; rw [← h]
  | AppTheme t =>
      simp only [update, Option.some.injEq] at h
      left; rw [← h]
  | SystemThemeModeChange t =>
      simp only [update, Option.some.injEq] at h
      left; rw [← h]
  | OpenNewListDialog =>
      simp only [update, Option.some.injEq] at h
      right; left
      exact ⟨.NewItem "", by rw [← h]; rfl⟩
  | OpenRenameListDialog =>
      simp only [update, Option.some.injEq] at h
      unfold openRenameListDialogStep at h
      split at h
      · next l _ => right; left; exact ⟨.RenameItem l.name l.name, by rw [← h]⟩
      · left; rw [← h]
  | OpenDeleteListDialog =>
      simp only [update, Option.some.injEq] at h
      unfold openDeleteListDialogStep at h
      split at h
      · next l _ => right; left; exact ⟨.DeleteItem l.name, by rw [← h]⟩
      · left; rw [← h]
  | AddList l =>
      left; exact handleAddList_dialogs a l r h
  | DeleteList =>
      simp only [update, Option.some.injEq] at h
      left; rw [← h]; exact handleDeleteList_dialogs a
  | UpdateList l =>
      simp only [update, Option.some.injEq] at h
      left; rw [← h]

/-- C2: for every state and every message the reducer processes without
panicking (synchronous re-dispatches included), the dialog stack depth
changes by at most one; `DialogUpdate` never changes the depth; and
`DialogComplete` and `DialogCancel` decrease it by exactly one whenever the
stack is non-empty. -/
theorem c2_dialog_depth (a : App) (m : Message) (r : App × List Cmd)
    (h : update a m = some r) :
    (r.1.dialog_pages.length ≤ a.dialog_pages.length + 1 ∧
      a.dialog_pages.length ≤ r.1.dialog_pages.length + 1) ∧
    (∀ p, m = .DialogUpdate p → r.1.dialog_pages.length = a.dialog_pages.length) ∧
    ((m = .DialogComplete ∨ m = .DialogCancel) → a.dialog_pages ≠ [] →
      r.1.dialog_pages.length + 1 = a.dialog_pages.length) := by
  refine ⟨?_, ?_, ?_⟩
  · rcases update_dialogs_shape a m r h with he | ⟨pg, he⟩ | he | he
    · rw [he]; omega
    · rw [he]; simp only [List.length_append, List.length_singleton]; omega
    · omega
    · rw [he, List.length_tail]; omega
  · intro p hp
    subst hp
    cases hd : a.dialog_pages with
    | nil =>
        simp only [update, hd] at h
        cases h
    | cons q rest =>
        simp only [update, hd, Option.some.injEq] at h
        rw [← h]
        simp
  · intro hm hne
    rcases hm with hm | hm <;> subst hm
    · simp only [update, Option.some.injEq] at h
      rw [← h, handleDialogComplete_dialogs]
      cases hd : a.dialog_pages with
      | nil => exact absurd hd hne
      | cons q rest => simp [hd]
    · simp only [update, Option.some.injEq] at h
      rw [← h]
      cases hd : a.dialog_pages with
      | nil => exact absurd hd hne
      | cons q rest => simp [hd]

/-- Witness for C2 at a concrete input: cancelling the single open dialog
of `exNewDialogApp`. -/
theorem c2_dialog_depth_witness :
    update exNewDialogApp .DialogCancel = some ({ exNewDialogApp with dialog_pages := [] }, []) ∧
    (({ exNewDialogApp with dialog_pages := [] } : App), ([] : List Cmd)).1.dialog_pages.length + 1 =
      exNewDialogApp.dialog_pages.length :=
  ⟨rfl, (c2_dialog_depth exNewDialogApp .DialogCancel _ rfl).2.2 (Or.inr rfl) (by decide)⟩

theorem updateAction_eq_update (a : App) (act : Action) :
    updateAction a act = update a (Action.message act) := by
  cases act <;> rfl

theorem find?_congr_of_perm {α : Type} (p : α → Bool) {l₁ l₂ : List α}
    (hp : l₁.Perm l₂) (huniq : ∀ x ∈ l₁, ∀ y ∈ l₁, p x → p y → x = y) :
    l₁.find? p = l₂.find? p := by
  cases h₁ : l₁.find? p with
  | none =>
      cases h₂ : l₂.find? p with
      | none => rfl
      | some b =>
          have hb := List.find?_some h₂
          have hmem : b ∈ l₁ := hp.symm.subset (List.mem_of_find?_eq_some h₂)
          have := List.find?_eq_none.mp h₁ b hmem
          exact absurd hb (by simpa using this)
  | some x =>
      have hx := List.find?_some h₁
      have hxmem := List.mem_of_find?_eq_some h₁
      cases h₂ : l₂.find? p with
      | none =>
          have := List.find?_eq_none.mp h₂ x (hp.subset hxmem)
          exact absurd hx (by simpa using this)
      | some b =>
          have hb := List.find?_some h₂
          have hbmem : b ∈ l₁ := hp.symm.subset (List.mem_of_find?_eq_some h₂)
          rw [huniq x hxmem b hbmem hx hb]

theorem matchesInput_unique (kb₁ kb₂ : KeyBind) (mods : Modifiers) (k : String)
    (h₁ : kb₁.matchesInput mods k = true) (h₂ : kb₂.matchesInput mods k = true) :
    kb₁ = kb₂ := by
  cases kb₁
  cases kb₂
  simp only [KeyBind.matchesInput, Bool.and_eq_true, beq_iff_eq] at h₁ h₂
  simp [h₁.1, h₁.2, h₂.1, h₂.2]

theorem findAction_perm (t₁ t₂ : List (KeyBind × Action)) (mods : Modifiers)
    (k : String) (hperm : t₁.Perm t₂) (hnd : (t₁.map (fun p => p.1)).Nodup) :
    findAction t₁ mods k = findAction t₂ mods k := by
  unfold findAction
  rw [find?_congr_of_perm (fun p => p.1.matchesInput mods k) hperm]
  intro x hx y hy hpx hpy
  have hkey : x.1 = y.1 := matchesInput_unique x.1 y.1 mods k hpx hpy
  exact List.inj_on_of_nodup_map hnd hx hy hkey

/-- C3: on a key press the reducer scans the binding table and re-dispatches
the first matching action's message; an unmatched chord leaves the state
untouched and schedules nothing; and the resolved action is independent of
the table's iteration order whenever the chords are pairwise distinct, which
is the HashMap key-uniqueness guarantee, so a fixed table resolves the same
input to the same action across runs. -/
theorem c3_key_dispatch :
    (∀ (a : App) (mods : Modifiers) (k : String) (act : Action),
        findAction a.key_binds mods k = some act →
        update a (.Key mods k) = update a (Action.message act)) ∧
    (∀ (a : App) (mods : Modifiers) (k : String),
        findAction a.key_binds mods k = none →
        update a (.Key mods k) = some (a, [])) ∧
    (∀ (t₁ t₂ : List (KeyBind × Action)) (mods : Modifiers) (k : String),
        t₁.Perm t₂ → (t₁.map (fun p => p.1)).Nodup →
        findAction t₁ mods k = findAction t₂ mods k) := by
  refine ⟨?_, ?_, ?_⟩
  · intro a mods k act hf
    simp only [update, hf]
    exact updateAction_eq_update a act
  · intro a mods k hf
    simp only [update, hf]
  · intro t₁ t₂ mods k hperm hnd
    exact findAction_perm t₁ t₂ mods k hperm hnd

/-- Witness for C3: the concrete table of `exKeyApp` resolves `exChord` to
the Settings action and the key press dispatches that action's message. -/
theorem c3_key_dispatch_witness :
    update exKeyApp (.Key exChord.modifiers exChord.key) =
      update exKeyApp (Action.message .Settings) :=
  c3_key_dispatch.1 exKeyApp exChord.modifiers exChord.key .Settings (by decide)

/-- C7: `DialogUpdate(page)` with an open dialog replaces exactly the front
element of the stack, leaving every other element and every other state
component unchanged; with an empty stack the reducer panics, modelled as
`none`. -/
theorem c7_dialog_update (a : App) (q : DialogPage) :
    (a.dialog_pages = [] → update a (.DialogUpdate q) = none) ∧
    (∀ p rest, a.dialog_pages = p :: rest →
      update a (.DialogUpdate q) = some ({ a with dialog_pages := q :: rest }, [])) := by
  constructor
  · intro hd
    simp [update, hd]
  · intro p rest hd
    simp [update, hd]

/-- Witness for C7 at concrete inputs: the empty stack panics, the singleton
stack gets its front replaced. -/
theorem c7_dialog_update_witness :
    update exInit (.DialogUpdate (.NewItem "z")) = none ∧
    update exNewDialogApp (.DialogUpdate (.NewItem "z")) =
      some ({ exNewDialogApp with dialog_pages := [.NewItem "z"] }, []) :=
  ⟨(c7_dialog_update exInit (.NewItem "z")).1 rfl,
    (c7_dialog_update exNewDialogApp (.NewItem "z")).2 (.NewItem "Groceries") [] rfl⟩

/-- C8: `DialogCancel` pops the front dialog page and does nothing else: no
command is scheduled and no other state component changes; on an empty
stack it is a complete no-op, with no panic. -/
theorem c8_dialog_cancel (a : App) :
    update a .DialogCancel = some ({ a with dialog_pages := a.dialog_pages.tail }, []) ∧
    (a.dialog_pages = [] → update a .DialogCancel = some (a, [])) := by
  constructor
  · rfl
  · intro hd
    obtain ⟨c, n, co, d, ch, cf, cp, kb, sl, mo, dp⟩ := a
    dsimp only at hd
    subst hd
    rfl

/-- Witness for C8: cancelling on the freshly initialised (empty-stack)
controller changes nothing. -/
theorem c8_dialog_cancel_witness :
    update exInit .DialogCancel = some (exInit, []) :=
  (c8_dialog_cancel exInit).2 rfl

/-- C9 (amended): toggling the context page that is already selected twice
returns the visibility flag to its original value, and toggling a page that
differs from the selected one selects it and shows the panel.  The original
claim, that any double toggle with no intervening page change restores the
flag, fails when the selected page differs and the panel is visible (see the
counterexample). -/
theorem c9_toggle_context (a : App) (p : ContextPage) :
    (a.context_page = p →
      ((update a (.ToggleContextPage p)).bind
          (fun r => update r.1 (.ToggleContextPage p))).map
        (fun r => r.1.core.show_context) = some a.core.show_context) ∧
    (a.context_page ≠ p →
      (update a (.ToggleContextPage p)).map
        (fun r => (r.1.context_page, r.1.core.show_context)) = some (p, true)) := by
  constructor
  · intro hp
    simp [update, toggleContextPage, hp]
  · intro hp
    simp [update, toggleContextPage, hp]

/-- Witness for C9: double-toggling Settings from the initial state, whose
selected page is already Settings, restores the (hidden) flag. -/
theorem c9_toggle_context_witness :
    ((update exInit (.ToggleContextPage .Settings)).bind
        (fun r => update r.1 (.ToggleContextPage .Settings))).map
      (fun r => r.1.core.show_context) = some exInit.core.show_context :=
  (c9_toggle_context exInit .Settings).1 rfl

/-- Counterexample for C9 as stated: with the About page selected and the
panel visible, toggling Settings twice with no intervening page change
leaves the panel hidden, not visible, so the flag does not return to its
original value. -/
theorem c9_toggle_context_counterexample :
    ((update exAboutShownApp (.ToggleContextPage .Settings)).bind
        (fun r => update r.1 (.ToggleContextPage .Settings))).map
      (fun r => r.1.core.show_context) = some false ∧
    exAboutShownApp.core.show_context = true := by
  constructor <;> rfl

theorem insertLists_none_of_icon_none : ∀ (ls₁ : List TodoList) (a : App)
    (l : TodoList) (ls₂ : List TodoList), l.icon = none →
    insertLists a (ls₁ ++ l :: ls₂) = none := by
  intro ls₁
  induction ls₁ with
  | nil =>
      intro a l ls₂ hi
      simp [insertLists, createNavItem, hi]
  | cons x xs ih =>
      intro a l ls₂ hi
      rw [List.cons_append]
      unfold insertLists
      split
      · next a₁ _ => exact ih a₁ l ls₂ hi
      · rfl

theorem createNavItem_icon_isSome (a : App) (l : TodoList) (a' : App)
    (h : createNavItem a l = some a') : l.icon.isSome := by
  unfold createNavItem at h
  split at h
  · cases h
  · next s heq => simp [heq]

theorem insertLists_icons_isSome : ∀ (ls : List TodoList) (a a' : App),
    insertLists a ls = some a' → ∀ l ∈ ls, l.icon.isSome := by
  intro ls
  induction ls with
  | nil => intro a a' _ l hl; cases hl
  | cons x xs ih =>
      intro a a' h l hl
      unfold insertLists at h
      split at h
      · next a₁ h₁ =>
          rcases List.mem_cons.mp hl with rfl | hl
          · exact createNavItem_icon_isSome a l a₁ h₁
          · exact ih a₁ a' h l hl
      · cases h

/-- C10: inserting a navigation entry for a List whose optional icon is
absent panics through the `unwrap` in `create_nav_item` instead of
inserting: `AddList` and `PopulateLists` abort whenever such a List occurs,
and conversely any run of these operations that completes only ever
inserted Lists whose icon is present. -/
theorem c10_icon_unwrap :
    (∀ (a : App) (l : TodoList), l.icon = none → update a (.AddList l) = none) ∧
    (∀ (a : App) (l : TodoList) (ls₁ ls₂ : List TodoList), l.icon = none →
        update a (.PopulateLists (ls₁ ++ l :: ls₂)) = none) ∧
    (∀ (a : App) (l : TodoList) (r : App × List Cmd),
        update a (.AddList l) = some r → l.icon.isSome) ∧
    (∀ (a : App) (ls : List TodoList) (r : App × List Cmd),
        update a (.PopulateLists ls) = some r → ∀ l ∈ ls, l.icon.isSome) := by
  refine ⟨?_, ?_, ?_, ?_⟩
  · intro a l hi
    simp [update, handleAddList, createNavItem, hi]
  · intro a l ls₁ ls₂ hi
    simp only [update, handlePopulate]
    rw [insertLists_none_of_icon_none ls₁ a l ls₂ hi]
  · intro a l r h
    simp only [update] at h
    unfold handleAddList at h
    dsimp only at h
    split at h
    · cases h
    · next a₁ h₁ => exact createNavItem_icon_isSome _ l a₁ h₁
  · intro a ls r h
    simp only [update] at h
    unfold handlePopulate at h
    split at h
    · cases h
    · next a₁ h₁ => exact insertLists_icons_isSome ls a a₁ h₁

/-- Witness for C10: adding the icon-less List panics from the initial
state. -/
theorem c10_icon_unwrap_witness :
    update exInit (.AddList exNoIcon) = none :=
  c10_icon_unwrap.1 exInit exNoIcon rfl

theorem handleContent_list_some (a : App) (l : TodoList) :
    handleContent a (.list (some l)) =
      ({ a with content := { a.content with list := some l } }, [.fetchTasks l.id]) :=
  rfl

theorem handleContent_list_none (a : App) :
    handleContent a (.list none) =
      ({ a with content := { a.content with list := none } }, []) :=
  rfl

theorem toggleContextPage_nav (a : App) (p : ContextPage) :
    (toggleContextPage a p).nav_model = a.nav_model := by
  unfold toggleContextPage
  split <;> rfl

theorem toggleContextPage_selected (a : App) (p : ContextPage) :
    (toggleContextPage a p).selected_list = a.selected_list := by
  unfold toggleContextPage
  split <;> rfl

theorem applyContentCmd_nav_sel (acc : App × List Cmd) (cc : ContentCmd) :
    (applyContentCmd acc cc).1.nav_model = acc.1.nav_model ∧
    (applyContentCmd acc cc).1.selected_list = acc.1.selected_list := by
  cases cc with
  | getTasks id => exact ⟨rfl, rfl⟩
  | displayTask t =>
      constructor
      · simp only [applyContentCmd]
        rw [toggleContextPage_nav]
      · simp only [applyContentCmd]
        rw [toggleContextPage_selected]
  | updateTask t => exact ⟨rfl, rfl⟩
  | delete id =>
      constructor <;> · dsimp only [applyContentCmd]; split <;> rfl
  | createTask t => exact ⟨rfl, rfl⟩

theorem foldl_applyContentCmd_nav_sel (ccs : List ContentCmd) (acc : App × List Cmd) :
    (ccs.foldl applyContentCmd acc).1.nav_model = acc.1.nav_model ∧
    (ccs.foldl applyContentCmd acc).1.selected_list = acc.1.selected_list := by
  induction ccs generalizing acc with
  | nil => exact ⟨rfl, rfl⟩
  | cons c cs ih =>
      rw [List.foldl_cons]
      refine ⟨?_, ?_⟩
      · rw [(ih (applyContentCmd acc c)).1, (applyContentCmd_nav_sel acc c).1]
      · rw [(ih (applyContentCmd acc c)).2, (applyContentCmd_nav_sel acc c).2]

theorem handleContent_nav (a : App) (m : ContentMsg) :
    (handleContent a m).1.nav_model = a.nav_model := by
  unfold handleContent
  rw [(foldl_applyContentCmd_nav_sel _ _).1]

theorem handleContent_selected (a : App) (m : ContentMsg) :
    (handleContent a m).1.selected_list = a.selected_list := by
  unfold handleContent
  rw [(foldl_applyContentCmd_nav_sel _ _).2]

/-- C4: with `selected_list = Some(L)`, `DeleteList` clears the selection,
forwards the empty-list message to Content, schedules exactly the backend
delete for `L.id`, and removes the navigation entry found by id; any found
entry indeed carries `L.id`, and when no entry matches the entries are left
unchanged while the rest still happens. -/
theorem c4_delete_list (a : App) (l : TodoList) (h : a.selected_list = some l) :
    ((update a .DeleteList).map
        (fun r => (r.1.selected_list, r.1.content.list, r.2)) =
      some (none, none, [Cmd.deleteList l.id])) ∧
    ((update a .DeleteList).map (fun r => r.1.nav_model.entries) =
      some (match a.nav_model.entries.find? (fun p => p.2.id == l.id) with
            | some p => a.nav_model.entries.filter (fun q => q.1 != p.1)
            | none => a.nav_model.entries)) ∧
    (∀ p, a.nav_model.entries.find? (fun p => p.2.id == l.id) = some p →
      p.2.id = l.id) ∧
    (a.nav_model.entries.find? (fun p => p.2.id == l.id) = none →
      (update a .DeleteList).map (fun r => r.1.nav_model.entries) =
        some a.nav_model.entries) := by
  have hmain : update a .DeleteList =
      some ({ (match a.nav_model.entries.find? (fun p => p.2.id == l.id) with
               | some p => { a with nav_model := navRemove a.nav_model p.1 }
               | none => a) with
              content := { a.content with list := none },
              selected_list := none },
            [Cmd.deleteList l.id]) := by
    simp only [update, handleDeleteList, h]
    cases hf : a.nav_model.entries.find? (fun p => p.2.id == l.id) with
    | some p => simp [hf, handleContent_list_none]
    | none => simp [hf, handleContent_list_none]
  refine ⟨?_, ?_, ?_, ?_⟩
  · rw [hmain]
    cases hf : a.nav_model.entries.find? (fun p => p.2.id == l.id) <;> simp [hf]
  · rw [hmain]
    cases hf : a.nav_model.entries.find? (fun p => p.2.id == l.id) <;>
      simp [hf, navRemove]
  · intro p hp
    have := List.find?_some hp
    simpa using this
  · intro hf
    rw [hmain]
    simp [hf]

/-- Witness for C4: deleting the selected list of `exDelApp`, whose single
entry matches the selected id. -/
theorem c4_delete_list_witness :
    ((update exDelApp .DeleteList).map
        (fun r => (r.1.selected_list, r.1.content.list, r.2)) =
      some (none, none, [Cmd.deleteList exL1.id])) ∧
    ((update exDelApp .DeleteList).map (fun r => r.1.nav_model.entries) =
      some (match exDelApp.nav_model.entries.find? (fun p => p.2.id == exL1.id) with
            | some p => exDelApp.nav_model.entries.filter (fun q => q.1 != p.1)
            | none => exDelApp.nav_model.entries)) :=
  ⟨(c4_delete_list exDelApp exL1 rfl).1, (c4_delete_list exDelApp exL1 rfl).2.1⟩

/-- C6 (amended): with a non-empty dialog stack, `DialogComplete` pops the
front page; a NewItem page schedules the backend create, a RenameItem page
schedules the rename of the selected list and a DeleteItem page delegates to
the `DeleteList` path, the latter two only when a list is selected: without
a selection both variants only pop and schedule nothing; a successful
create result re-enters as `AddList`, a successful rename result as
`UpdateList`, and failed backend calls produce no follow-up message. -/
theorem c6_dialog_complete (a : App) (page : DialogPage) (rest : List DialogPage)
    (hd : a.dialog_pages = page :: rest) :
    (∀ name, page = .NewItem name →
      update a .DialogComplete =
        some ({ a with dialog_pages := rest },
          [.createList (listNew name .Computer)])) ∧
    (∀ f t l, page = .RenameItem f t → a.selected_list = some l →
      update a .DialogComplete =
        some ({ a with dialog_pages := rest },
          [.updateList { l with name := t }])) ∧
    (∀ f t, page = .RenameItem f t → a.selected_list = none →
      update a .DialogComplete = some ({ a with dialog_pages := rest }, [])) ∧
    (∀ nm l, page = .DeleteItem nm → a.selected_list = some l →
      update a .DialogComplete =
        update { a with dialog_pages := rest } .DeleteList) ∧
    (∀ nm, page = .DeleteItem nm → a.selected_list = none →
      update a .DialogComplete = some ({ a with dialog_pages := rest }, [])) ∧
    (∀ l, createListResultMessage (some l) = some (.AddList l)) ∧
    createListResultMessage none = none ∧
    (∀ l, updateListResultMessage l true = some (.UpdateList l) ∧
      updateListResultMessage l false = none) ∧
    (∀ b, deleteListResultMessage b = none) := by
  refine ⟨?_, ?_, ?_, ?_, ?_, ?_, rfl, ?_, fun b => rfl⟩
  · intro name hp
    subst hp
    simp [update, handleDialogComplete, hd]
  · intro f t l hp hsel
    subst hp
    simp [update, handleDialogComplete, hd, hsel]
  · intro f t hp hsel
    subst hp
    simp [update, handleDialogComplete, hd, hsel]
  · intro nm l hp hsel
    subst hp
    simp [update, handleDialogComplete, hd, hsel]
  · intro nm hp hsel
    subst hp
    simp [update, handleDialogComplete, hd, hsel]
  · intro l
    rfl
  · intro l
    exact ⟨rfl, rfl⟩

/-- Witness for C6: completing the NewItem dialog of `exNewDialogApp`
schedules the create for a list named Groceries, and completing a
DeleteItem dialog with no selected list only pops it. -/
theorem c6_dialog_complete_witness :
    (update exNewDialogApp .DialogComplete =
      some ({ exNewDialogApp with dialog_pages := [] },
        [.createList (listNew "Groceries" .Computer)])) ∧
    (update { exInit with dialog_pages := [.DeleteItem "x"] } .DialogComplete =
      some ({ { exInit with dialog_pages := [.DeleteItem "x"] } with
        dialog_pages := [] }, [])) :=
  ⟨(c6_dialog_complete exNewDialogApp (.NewItem "Groceries") [] rfl).1 "Groceries" rfl,
    (c6_dialog_complete { exInit with dialog_pages := [.DeleteItem "x"] }
      (.DeleteItem "x") [] rfl).2.2.2.2.1 "x" rfl rfl⟩

/-- Counterexample for C6 as stated: with a RenameItem dialog open but no
list selected, `DialogComplete` pops the page and schedules nothing, so the
claim that every variant schedules its backend call fails. -/
theorem c6_dialog_complete_counterexample :
    (update exRenameNoSelApp .DialogComplete).map
      (fun r => (r.1.dialog_pages, r.2)) = some ([], []) :=
  rfl

theorem createNavItem_some (a : App) (l : TodoList) (a' : App)
    (h : createNavItem a l = some a') :
    a' = { a with nav_model := navInsert a.nav_model l } := by
  unfold createNavItem at h
  split at h
  · cases h
  · exact (Option.some.inj h).symm

theorem insertLists_entries : ∀ (ls : List TodoList) (a a' : App),
    insertLists a ls = some a' →
    a'.nav_model.entries.map (fun p => p.2) =
        a.nav_model.entries.map (fun p => p.2) ++ ls ∧
    a'.nav_model.active = a.nav_model.active ∧
    a'.selected_list = a.selected_list ∧
    a'.content = a.content := by
  intro ls
  induction ls with
  | nil =>
      intro a a' h
      cases h
      exact ⟨by simp, rfl, rfl, rfl⟩
  | cons x xs ih =>
      intro a a' h
      unfold insertLists at h
      split at h
      · next a₁ h₁ =>
          obtain rfl := createNavItem_some a x a₁ h₁
          obtain ⟨he, ha, hs, hc⟩ := ih _ a' h
          refine ⟨?_, ha, hs, hc⟩
          rw [he]
          simp [navInsert]
      · cases h

theorem insertLists_isSome : ∀ (ls : List TodoList) (a : App),
    (∀ l ∈ ls, l.icon.isSome) → ∃ a', insertLists a ls = some a' := by
  intro ls
  induction ls with
  | nil => intro a _; exact ⟨a, rfl⟩
  | cons x xs ih =>
      intro a hic
      have hx : x.icon.isSome := hic x (by simp)
      cases hxi : x.icon with
      | none => rw [hxi] at hx; cases hx
      | some s =>
          obtain ⟨a', h'⟩ := ih { a with nav_model := navInsert a.nav_model x }
            (fun l hl => hic l (by simp [hl]))
          refine ⟨a', ?_⟩
          unfold insertLists createNavItem
          rw [hxi]
          exact h'

theorem onNavSelect_nav_entries (a : App) (e : Nat) :
    (onNavSelect a e).1.nav_model.entries = a.nav_model.entries := by
  unfold onNavSelect
  dsimp only
  split
  · rw [handleContent_nav]; rfl
  · rfl

theorem onNavSelect_found (a : App) (e : Nat) (l : TodoList)
    (h : navData (navActivate a.nav_model e) e = some l) :
    onNavSelect a e =
      ({ a with nav_model := navActivate a.nav_model e,
                selected_list := some l,
                content := { a.content with list := some l } },
        [Cmd.fetchTasks l.id]) := by
  unfold onNavSelect
  dsimp only
  rw [h]
  dsimp only
  rw [handleContent_list_some]

/-- C5 (amended): for a list of Lists whose icons are all present,
`PopulateLists` appends one navigation entry per List preserving the source
order; when the model remains empty nothing is activated and no error
occurs; and whenever the model ends non-empty its first entry is activated,
`selected_list` becomes that entry's List, and exactly one task-fetch
command is scheduled for its id.  The original claim, quantifying over
every list of Lists, fails for a List without an icon (see the
counterexample and C10). -/
theorem c5_populate_lists (a : App) (ls : List TodoList)
    (hicons : ∀ l ∈ ls, l.icon.isSome) :
    ((update a (.PopulateLists ls)).map
        (fun r => r.1.nav_model.entries.map (fun p => p.2)) =
      some (a.nav_model.entries.map (fun p => p.2) ++ ls)) ∧
    (a.nav_model.entries = [] → ls = [] →
      update a (.PopulateLists ls) = some (a, [])) ∧
    (∀ r p ps, update a (.PopulateLists ls) = some r →
      r.1.nav_model.entries = p :: ps →
      r.1.nav_model.active = some p.1 ∧ r.1.selected_list = some p.2 ∧
        r.2 = [Cmd.fetchTasks p.2.id]) := by
  obtain ⟨a₁, h₁⟩ := insertLists_isSome ls a hicons
  obtain ⟨hent, hact, hsel, hcon⟩ := insertLists_entries ls a a₁ h₁
  refine ⟨?_, ?_, ?_⟩
  · simp only [update, handlePopulate, h₁]
    cases hh : a₁.nav_model.entries.head? with
    | none => simpa using hent
    | some p =>
        simp only [Option.map_some']
        rw [onNavSelect_nav_entries]
        simpa using hent
  · intro he hls
    subst hls
    cases h₁
    simp [update, handlePopulate, insertLists, he]
  · intro r p ps hr hent'
    simp only [update, handlePopulate, h₁] at hr
    cases hh : a₁.nav_model.entries.head? with
    | none =>
        simp only [hh] at hr
        cases hr
        rw [hent'] at hh
        simp at hh
    | some p₀ =>
        simp only [hh] at hr
        cases hr
        have hent₁ : a₁.nav_model.entries = p :: ps := by
          rw [onNavSelect_nav_entries] at hent'
          simpa [navActivate] using hent'
        have hp : p₀ = p := by
          have h2 : a₁.nav_model.entries.head? = some p := by rw [hent₁]; rfl
          rw [hh] at h2
          exact Option.some.inj h2
        subst hp
        have hdata : navData (navActivate ({ a₁ with
            nav_model := navActivate a₁.nav_model p₀.1 }).nav_model p₀.1) p₀.1 =
            some p₀.2 := by
          unfold navData navActivate
          dsimp only
          rw [hent₁]
          simp [List.find?]
        rw [onNavSelect_found _ _ _ hdata]
        exact ⟨rfl, rfl, rfl⟩

/-- Witness for C5: populating two icon-carrying lists from the initial
state appends both entries in order. -/
theorem c5_populate_lists_witness :
    (update exInit (.PopulateLists [exL1, exL2])).map
        (fun r => r.1.nav_model.entries.map (fun p => p.2)) =
      some (exInit.nav_model.entries.map (fun p => p.2) ++ [exL1, exL2]) :=
  (c5_populate_lists exInit [exL1, exL2] (by decide)).1

/-- Counterexample for C5 as stated: populating a List without an icon
panics instead of inserting its entry, so the claim does not hold for every
list of Lists. -/
theorem c5_populate_lists_counterexample :
    update exInit (.PopulateLists [exNoIcon]) = none :=
  rfl

theorem find?_last_key (xs : List (Nat × TodoList)) (nid : Nat) (l : TodoList)
    (hb : ∀ p ∈ xs, p.1 < nid) :
    (xs ++ [(nid, l)]).find? (fun p => p.1 == nid) = some (nid, l) := by
  induction xs with
  | nil => simp [List.find?]
  | cons x xs ih =>
      have hx : (x.1 == nid) = false := by
        have hlt := hb x (by simp)
        simp [Nat.ne_of_lt hlt]
      rw [List.cons_append, List.find?_cons, hx]
      exact ih (fun p hp => hb p (by simp [hp]))

theorem navKeysOk_insert (n : NavModel) (l : TodoList) (h : NavKeysOk n) :
    NavKeysOk (navInsert n l) := by
  obtain ⟨hb, hnd⟩ := h
  constructor
  · intro p hp
    simp only [navInsert, List.mem_append, List.mem_singleton] at hp
    rcases hp with hp | hp
    · exact Nat.lt_trans (hb p hp) (Nat.lt_succ_self _)
    · subst hp
      exact Nat.lt_succ_self _
  · simp only [navInsert, List.map_append, List.map_cons, List.map_nil]
    rw [List.nodup_append]
    refine ⟨hnd, List.nodup_singleton _, ?_⟩
    intro k hk hk'
    simp only [List.mem_singleton] at hk'
    subst hk'
    obtain ⟨p, hp, hpk⟩ := List.mem_map.mp hk
    exact absurd hpk (Nat.ne_of_lt (hb p hp))

theorem insertLists_keysOk : ∀ (ls : List TodoList) (a a' : App),
    insertLists a ls = some a' → NavKeysOk a.nav_model →
    NavKeysOk a'.nav_model := by
  intro ls
  induction ls with
  | nil => intro a a' h hk; cases h; exact hk
  | cons x xs ih =>
      intro a a' h hk
      unfold insertLists at h
      split at h
      · next a₁ h₁ =>
          obtain rfl := createNavItem_some a x a₁ h₁
          exact ih _ a' h (navKeysOk_insert a.nav_model x hk)
      · cases h

theorem countP_beq_le_one (e : Nat) : ∀ (ks : List Nat), ks.Nodup →
    ks.countP (fun k => e == k) ≤ 1 := by
  intro ks
  induction ks with
  | nil => intro _; simp
  | cons k ks ih =>
      intro hnd
      rw [List.countP_cons]
      rcases List.nodup_cons.mp hnd with ⟨hk, hnd'⟩
      by_cases he : e = k
      · subst he
        have hz : ks.countP (fun k' => e == k') = 0 := by
          rw [List.countP_eq_zero]
          intro k' hk'
          simp only [beq_iff_eq]
          intro hek
          exact hk (hek ▸ hk')
        simp [hz]
      · have : (e == k) = false := by simp [he]
        simp only [this]
        simpa using ih hnd'

theorem navActiveData_activate (n : NavModel) (e : Nat) :
    navActiveData (navActivate n e) = navData (navActivate n e) e :=
  rfl

theorem navKeysOk_activate (n : NavModel) (e : Nat) (h : NavKeysOk n) :
    NavKeysOk (navActivate n e) :=
  h

theorem step_addList (a : App) (l : TodoList) (r : App × List Cmd)
    (hk : NavKeysOk a.nav_model) (h : update a (.AddList l) = some r) :
    NavKeysOk r.1.nav_model ∧
    r.1.selected_list = navActiveData r.1.nav_model ∧
    entryIds r.1.nav_model = entryIds a.nav_model ++ [l.id] := by
  simp only [update] at h
  unfold handleAddList at h
  dsimp only at h
  split at h
  · cases h
  · next a₁ h₁ =>
      have ha₁ := createNavItem_some _ l a₁ h₁
      have hnav₁ : a₁.nav_model = navInsert a.nav_model l := by rw [ha₁]
      have hentries : a₁.nav_model.entries =
          a.nav_model.entries ++ [(a.nav_model.nextId, l)] := by
        rw [hnav₁]
        rfl
      have hko : NavKeysOk a₁.nav_model := by
        rw [hnav₁]
        exact navKeysOk_insert a.nav_model l hk
      split at h
      · next hlast =>
          rw [hentries, List.getLast?_concat] at hlast
          cases hlast
      · next p hlast =>
          cases h
          have hp : p = (a.nav_model.nextId, l) := by
            rw [hentries, List.getLast?_concat] at hlast
            exact (Option.some.inj hlast).symm
          have hp1 : p.1 = a.nav_model.nextId := by rw [hp]
          have hp2 : p.2 = l := by rw [hp]
          have hdata : navData (navActivate a₁.nav_model p.1) p.1 = some l := by
            unfold navData navActivate
            dsimp only
            rw [hentries, hp1, find?_last_key a.nav_model.entries a.nav_model.nextId l hk.1]
            rfl
          rw [onNavSelect_found a₁ p.1 l hdata]
          refine ⟨?_, ?_, ?_⟩
          · exact navKeysOk_activate _ _ hko
          · rw [navActiveData_activate]
            exact hdata.symm
          · show entryIds (navActivate a₁.nav_model p.1) = _
            simp only [entryIds, navActivate]
            rw [hentries]
            simp

theorem step_populate (a : App) (ls : List TodoList) (r : App × List Cmd)
    (hk : NavKeysOk a.nav_model)
    (hsel : a.selected_list = navActiveData a.nav_model)
    (h : update a (.PopulateLists ls) = some r) :
    NavKeysOk r.1.nav_model ∧
    r.1.selected_list = navActiveData r.1.nav_model ∧
    entryIds r.1.nav_model = entryIds a.nav_model ++ ls.map (fun l => l.id) := by
  simp only [update] at h
  unfold handlePopulate at h
  split at h
  · cases h
  · next a₁ h₁ =>
      have hko := insertLists_keysOk ls a a₁ h₁ hk
      obtain ⟨hent, hact, hsel₁, hcon⟩ := insertLists_entries ls a a₁ h₁
      have hids : entryIds a₁.nav_model = entryIds a.nav_model ++ ls.map (fun l => l.id) := by
        simp only [entryIds]
        have h2 := congrArg (List.map (fun l : TodoList => l.id)) hent
        rw [List.map_append, List.map_map, List.map_map] at h2
        simpa [Function.comp] using h2
      split at h
      · next hh =>
          cases h
          refine ⟨hko, ?_, hids⟩
          have he₁ : a₁.nav_model.entries = [] := by
            cases hce : a₁.nav_model.entries with
            | nil => rfl
            | cons q t => rw [hce] at hh; cases hh
          rw [hsel₁, hsel]
          cases haa : a.nav_model.active with
          | none => simp [navActiveData, hact, haa]
          | some e =>
              have hae : a.nav_model.entries = [] := by
                have h0 : a.nav_model.entries.map (fun p => p.2) ++ ls = [] := by
                  rw [← hent, he₁]
                  rfl
                have h1 := List.append_eq_nil.mp h0
                exact List.map_eq_nil_iff.mp h1.1
              simp [navActiveData, hact, haa, navData, he₁, hae]
      · next p₀ hh =>
          cases h
          obtain ⟨tail, hentries⟩ : ∃ t, a₁.nav_model.entries = p₀ :: t := by
            cases hce : a₁.nav_model.entries with
            | nil => rw [hce] at hh; cases hh
            | cons q t =>
                rw [hce] at hh
                exact ⟨t, by rw [← Option.some.inj hh]⟩
          have hdata : navData (navActivate ({ a₁ with
              nav_model := navActivate a₁.nav_model p₀.1 }).nav_model p₀.1) p₀.1 =
              some p₀.2 := by
            unfold navData navActivate
            dsimp only
            rw [hentries]
            simp [List.find?]
          rw [onNavSelect_found _ _ _ hdata]
          refine ⟨hko, ?_, hids⟩
          rw [navActiveData_activate]
          exact hdata.symm

theorem step_delete (a : App) (r : App × List Cmd)
    (hk : NavKeysOk a.nav_model)
    (hsel : a.selected_list = navActiveData a.nav_model)
    (hids : (entryIds a.nav_model).Nodup)
    (h : update a .DeleteList = some r) :
    NavKeysOk r.1.nav_model ∧
    r.1.selected_list = navActiveData r.1.nav_model ∧
    (entryIds r.1.nav_model).Sublist (entryIds a.nav_model) := by
  simp only [update, Option.some.injEq] at h
  subst h
  cases hs : a.selected_list with
  | none =>
      have hmain : handleDeleteList a = (a, []) := by
        unfold handleDeleteList
        rw [hs]
      rw [hmain]
      exact ⟨hk, hsel, List.Sublist.refl _⟩
  | some l =>
      rw [hs] at hsel
      cases ha : a.nav_model.active with
      | none =>
          simp [navActiveData, ha] at hsel
      | some e =>
          have hnavdata : navData a.nav_model e = some l := by
            simpa [navActiveData, ha] using hsel.symm
          obtain ⟨q, hq⟩ : ∃ q, a.nav_model.entries.find? (fun p => p.1 == e) = some q := by
            unfold navData at hnavdata
            cases hf : a.nav_model.entries.find? (fun p => p.1 == e) with
            | none => rw [hf] at hnavdata; cases hnavdata
            | some q => exact ⟨q, rfl⟩
          have hq1 : q.1 = e := by simpa using List.find?_some hq
          have hq2 : q.2 = l := by
            unfold navData at hnavdata
            rw [hq] at hnavdata
            simpa using hnavdata
          have hqmem := List.mem_of_find?_eq_some hq
          have hfind : a.nav_model.entries.find? (fun p => p.2.id == l.id) = some q := by
            cases hf : a.nav_model.entries.find? (fun p => p.2.id == l.id) with
            | none =>
                have hnone := List.find?_eq_none.mp hf q hqmem
                exact absurd (by simp [hq2] : (q.2.id == l.id) = true)
                  (by simpa using hnone)
            | some q' =>
                have hq'mem := List.mem_of_find?_eq_some hf
                have hq'id : q'.2.id = l.id := by simpa using List.find?_some hf
                have heq : q' = q :=
                  List.inj_on_of_nodup_map hids hq'mem hqmem (by rw [hq'id, hq2])
                rw [heq]
          have hmain : handleDeleteList a =
              ({ { a with nav_model := navRemove a.nav_model q.1 } with
                  content := { a.content with list := none },
                  selected_list := none }, [Cmd.deleteList l.id]) := by
            unfold handleDeleteList
            rw [hs]
            dsimp only
            rw [hfind]
            dsimp only
            rw [handleContent_list_none]
            rfl
          rw [hmain]
          refine ⟨⟨?_, ?_⟩, ?_, ?_⟩
          · intro p hp
            simp only [navRemove, List.mem_filter] at hp
            exact hk.1 p hp.1
          · have hsub : (navRemove a.nav_model q.1).entries.map (fun p => p.1) |>.Sublist
                (a.nav_model.entries.map (fun p => p.1)) :=
              (List.filter_sublist _).map _
            exact hk.2.sublist hsub
          · simp [navActiveData, navRemove, ha, hq1]
          · exact (List.filter_sublist _).map _

theorem navSeq_inv : ∀ (msgs : List Message) (a : App),
    (∀ m ∈ msgs, isNavMessage m = true) →
    NavKeysOk a.nav_model →
    a.selected_list = navActiveData a.nav_model →
    (entryIds a.nav_model ++ (payloadLists msgs).map (fun l => l.id)).Nodup →
    ∀ a', applySeq a msgs = some a' →
      NavKeysOk a'.nav_model ∧ a'.selected_list = navActiveData a'.nav_model := by
  intro msgs
  induction msgs with
  | nil =>
      intro a _ hk hsel _ a' h
      cases h
      exact ⟨hk, hsel⟩
  | cons m rest ih =>
      intro a hnav hk hsel hnd a' h
      unfold applySeq at h
      split at h
      · next r hr =>
          have hrest : ∀ m' ∈ rest, isNavMessage m' = true :=
            fun m' hm' => hnav m' (List.mem_cons_of_mem m hm')
          have hm := hnav m (List.mem_cons_self m rest)
          cases m
          case AddList l =>
              obtain ⟨hk', hsel', hids'⟩ := step_addList a l r hk hr
              refine ih r.1 hrest hk' hsel' ?_ a' h
              rw [hids', List.append_assoc, List.singleton_append]
              simpa [payloadLists] using hnd
          case PopulateLists ls =>
              obtain ⟨hk', hsel', hids'⟩ := step_populate a ls r hk hsel hr
              refine ih r.1 hrest hk' hsel' ?_ a' h
              rw [hids', List.append_assoc]
              simpa [payloadLists] using hnd
          case DeleteList =>
              have hids0 : (entryIds a.nav_model).Nodup := hnd.of_append_left
              obtain ⟨hk', hsel', hsub⟩ := step_delete a r hk hsel hids0 hr
              refine ih r.1 hrest hk' hsel' ?_ a' h
              have hnd' : (entryIds a.nav_model ++
                  (payloadLists rest).map (fun x => x.id)).Nodup := by
                simpa [payloadLists] using hnd
              exact hnd'.sublist (hsub.append_right _)
          all_goals simp [isNavMessage] at hm
      · cases h

/-- C1 (amended): after any panic-free sequence of `AddList`, `DeleteList`
and `PopulateLists` messages from the initial controller state, in which
all carried Lists have pairwise distinct ids, at most one navigation entry
is active and `selected_list` is `Some L` exactly when the active entry's
attached List equals `L`.  The original claim, with no restriction on the
ids, fails: with two entries sharing an id, `DeleteList` can remove the
inactive duplicate while clearing the selection (see the counterexample). -/
theorem c1_nav_invariant (binds : List (KeyBind × Action)) (cfg : AppConfig)
    (hdl : Bool) (msgs : List Message) (a' : App)
    (hnav : ∀ m ∈ msgs, isNavMessage m = true)
    (hids : (payloadLists msgs).Pairwise (fun x y => x.id ≠ y.id))
    (hrun : applySeq (initApp binds cfg hdl) msgs = some a') :
    a'.nav_model.entries.countP (fun p => a'.nav_model.active == some p.1) ≤ 1 ∧
    (∀ L, a'.selected_list = some L ↔ navActiveData a'.nav_model = some L) := by
  have hk0 : NavKeysOk (initApp binds cfg hdl).nav_model := by
    constructor
    · intro p hp
      simp [initApp] at hp
    · simp [initApp]
  have hsel0 : (initApp binds cfg hdl).selected_list =
      navActiveData (initApp binds cfg hdl).nav_model := rfl
  have hnd0 : (entryIds (initApp binds cfg hdl).nav_model ++
      (payloadLists msgs).map (fun l => l.id)).Nodup := by
    have hnil : entryIds (initApp binds cfg hdl).nav_model = [] := rfl
    rw [hnil, List.nil_append]
    exact hids.map (fun l : TodoList => l.id) (fun a b h => h)
  obtain ⟨hk, hsel⟩ := navSeq_inv msgs _ hnav hk0 hsel0 hnd0 a' hrun
  constructor
  · cases haa : a'.nav_model.active with
    | none =>
        have h0 : a'.nav_model.entries.countP
            (fun p => (none : Option Nat) == some p.1) = 0 :=
          List.countP_eq_zero.mpr (fun p _ => by simp)
        rw [h0]
        exact Nat.zero_le 1
    | some e =>
        have hcong : (fun p : Nat × TodoList => (some e == some p.1)) =
            (fun p => e == p.1) := by
          funext p
          simp
        rw [hcong]
        have hle := countP_beq_le_one e
          (a'.nav_model.entries.map (fun p => p.1)) hk.2
        rw [List.countP_map] at hle
        simpa [Function.comp] using hle
  · intro L
    rw [hsel]

/-- Witness for C1: a populate of two distinct-id lists, an add of a third
and a delete, run concretely from the initial state. -/
theorem c1_nav_invariant_witness :
    exC1WFinal.nav_model.entries.countP
        (fun p => exC1WFinal.nav_model.active == some p.1) ≤ 1 ∧
    (∀ L, exC1WFinal.selected_list = some L ↔
      navActiveData exC1WFinal.nav_model = some L) :=
  c1_nav_invariant [] exCfg false exC1WMsgs exC1WFinal (by decide) (by decide) rfl

/-- Counterexample for C1 as stated: after `AddList A`, `AddList B` with
`A.id = B.id` and `DeleteList`, the entry for `A` is removed while `B`'s
entry stays active, yet `selected_list` is cleared, so the claimed iff
fails at `L = B`. -/
theorem c1_nav_invariant_counterexample :
    (applySeq exInit exC1Msgs).map
        (fun a => (a.selected_list, navActiveData a.nav_model)) =
      some (none, some exDupB) ∧
    (none : Option TodoList) ≠ some exDupB := by
  constructor
  · rfl
  · simp

end CosmicTasks
